import Mathlib

/-!
Verification of the ArtEpoch contract.

The contract stores an encrypted 16-bit "correct year" per artwork, lets
players submit encrypted guesses, homomorphically computes the absolute
difference, stores it under a per-(artwork, player) nonce, and grants the
submitting player (and the contract itself) decryption rights over the result.

The embedding models each euint16 ciphertext handle by the plaintext value it
carries (a natural number below 2^16); the FHE arithmetic backend operations
(`FHE.sub`, `FHE.gt`, `FHE.select`, `FHE.fromExternal`) become the
corresponding wrapping operations on those plaintexts.  Contract storage
mappings become total functions with the EVM zero-default, reverts become
`Except` errors, `FHE.allow` / `FHE.allowThis` grants and emitted events
become append-only logs, and `block.timestamp` / `msg.sender` become explicit
parameters.
-/

namespace ArtEpoch

/-- Modulus of the euint16 encrypted-integer type. -/
def U16 : Nat := 65536

/-- Plaintext semantics of `FHE.fromExternal`: the ciphertext provider
validates the proof and yields a handle carrying a 16-bit plaintext.  The
proof itself is opaque to the contract and ignored here (validation failures
are modelled as not occurring, matching the spec's treatment of the provider
as a trusted collaborator). -/
def fheFromExternal (value _inputProof : Nat) : Nat := value % U16

/-- Plaintext semantics of `FHE.sub` on euint16: wrapping subtraction modulo
2^16 (operands produced by the contract are always below 2^16). -/
def fheSub (a b : Nat) : Nat := (a + U16 - b) % U16

/-- Plaintext semantics of `FHE.gt` on euint16. -/
def fheGt (a b : Nat) : Bool := decide (b < a)

/-- Plaintext semantics of `FHE.select`. -/
def fheSelect (c : Bool) (a b : Nat) : Nat := if c then a else b

/-- The branchless absolute-difference construction of `submitGuess`
(source lines 122-126): both wrapping differences are computed, and the
encrypted comparison selects the meaningful one. -/
def computeAbsDiff (guess answer : Nat) : Nat :=
  let diff1 := fheSub guess answer
  let diff2 := fheSub answer guess
  let guessGreater := fheGt guess answer
  fheSelect guessGreater diff1 diff2

/-- An artwork record: the handle of the encrypted correct year and the
initialization flag (`exists` in the source; renamed because `exists` is a
reserved word in Lean). -/
structure Artwork where
  encryptedYear : Nat
  existsFlag : Bool
deriving DecidableEq, Repr

/-- A guess result: the handle of the encrypted difference and the creation
timestamp (zero meaning "absent", the EVM storage default). -/
structure GuessResult where
  encryptedDiff : Nat
  timestamp : Nat
deriving DecidableEq, Repr

/-- The two events the contract emits. -/
inductive Event where
  | ArtworkAdded (artworkId timestamp : Nat)
  | GuessSubmitted (artworkId player nonce timestamp : Nat)
deriving DecidableEq, Repr

/-- Decrypt-authorization grants issued through the access-control
subsystem: `allow handle principal` (`FHE.allow`) and `allowThis handle`
(`FHE.allowThis`, authorizing the contract itself). -/
inductive Grant where
  | allow (handle principal : Nat)
  | allowThis (handle : Nat)
deriving DecidableEq, Repr

/-- The revert conditions of the contract. -/
inductive ContractError where
  | NotOwner
  | ArtworkAlreadyExists
  | LengthMismatch
  | ArtworkNotFound
  | NoGuessFound
deriving DecidableEq, Repr

/-- The full contract state.  Addresses are modelled as naturals.  Mappings
are total functions returning the EVM zero-default for untouched keys.
`events` and `grants` are append-only observation logs. -/
structure ContractState where
  owner : Nat
  artworks : Nat → Artwork
  guessResults : Nat → Nat → Nat → GuessResult
  guessCount : Nat → Nat → Nat
  totalArtworks : Nat
  totalGuesses : Nat
  events : List Event
  grants : List Grant

/-- State immediately after the constructor runs with deployer `msg.sender`. -/
def initState (deployer : Nat) : ContractState where
  owner := deployer
  artworks := fun _ => ⟨0, false⟩
  guessResults := fun _ _ _ => ⟨0, 0⟩
  guessCount := fun _ _ => 0
  totalArtworks := 0
  totalGuesses := 0
  events := []
  grants := []

/-- The registration steps shared by `addArtwork` and each non-skipped
iteration of `addArtworksBatch`: validate the external ciphertext, store the
record with `existsFlag = true`, self-authorize the handle, bump
`totalArtworks`, emit `ArtworkAdded`. -/
def registerArtworkEntry (artworkId encryptedYear inputProof ts : Nat)
    (st : ContractState) : ContractState :=
  let year := fheFromExternal encryptedYear inputProof
  { st with
    artworks := fun i => if i = artworkId then ⟨year, true⟩ else st.artworks i
    grants := st.grants ++ [Grant.allowThis year]
    totalArtworks := st.totalArtworks + 1
    events := st.events ++ [Event.ArtworkAdded artworkId ts] }

/-- `addArtwork`: owner-only registration of a single artwork; reverts on a
duplicate ID. -/
def addArtwork (caller artworkId encryptedYear inputProof ts : Nat)
    (st : ContractState) : Except ContractError ContractState :=
  if caller = st.owner then
    if (st.artworks artworkId).existsFlag then .error .ArtworkAlreadyExists
    else .ok (registerArtworkEntry artworkId encryptedYear inputProof ts st)
  else .error .NotOwner

/-- The loop body of `addArtworksBatch` over the zipped entry list:
already-existing IDs are silently skipped, fresh ones registered. -/
def addArtworksBatchLoop (ts : Nat) :
    List (Nat × Nat × Nat) → ContractState → ContractState
  | [], st => st
  | (artworkId, encryptedYear, inputProof) :: rest, st =>
    if (st.artworks artworkId).existsFlag then
      addArtworksBatchLoop ts rest st
    else
      addArtworksBatchLoop ts rest
        (registerArtworkEntry artworkId encryptedYear inputProof ts st)

/-- `addArtworksBatch`: owner-only batch registration; reverts when the three
arrays do not all have the same length, otherwise runs the skip-on-duplicate
loop. -/
def addArtworksBatch (caller : Nat)
    (artworkIds encryptedYears inputProofs : List Nat) (ts : Nat)
    (st : ContractState) : Except ContractError ContractState :=
  if caller = st.owner then
    if artworkIds.length = encryptedYears.length ∧
        artworkIds.length = inputProofs.length then
      .ok (addArtworksBatchLoop ts
        (artworkIds.zip (encryptedYears.zip inputProofs)) st)
    else .error .LengthMismatch
  else .error .NotOwner

/-- `submitGuess`: reverts when the artwork does not exist; otherwise computes
the encrypted absolute difference, stores it at the caller's current nonce,
increments the per-pair counter and `totalGuesses`, grants decryption of the
result to the caller and to the contract, emits `GuessSubmitted`, and returns
the nonce. -/
def submitGuess (caller artworkId encryptedGuess inputProof ts : Nat)
    (st : ContractState) : Except ContractError (Nat × ContractState) :=
  if (st.artworks artworkId).existsFlag then
    let guess := fheFromExternal encryptedGuess inputProof
    let answer := (st.artworks artworkId).encryptedYear
    let absDiff := computeAbsDiff guess answer
    let nonce := st.guessCount artworkId caller
    .ok (nonce,
      { st with
        guessCount := fun a p =>
          if a = artworkId ∧ p = caller then nonce + 1 else st.guessCount a p
        guessResults := fun a p n =>
          if a = artworkId ∧ p = caller ∧ n = nonce then ⟨absDiff, ts⟩
          else st.guessResults a p n
        grants := st.grants ++ [Grant.allow absDiff caller, Grant.allowThis absDiff]
        totalGuesses := st.totalGuesses + 1
        events := st.events ++ [Event.GuessSubmitted artworkId caller nonce ts] })
  else .error .ArtworkNotFound

/-- `getGuessResult`: reverts unless a result exists at the triple (stored
timestamp positive). -/
def getGuessResult (artworkId player nonce : Nat) (st : ContractState) :
    Except ContractError Nat :=
  if 0 < (st.guessResults artworkId player nonce).timestamp then
    .ok (st.guessResults artworkId player nonce).encryptedDiff
  else .error .NoGuessFound

/-- `getLatestGuessResult`: reverts unless the pair's guess count is positive;
otherwise returns the result at index `count - 1`. -/
def getLatestGuessResult (artworkId player : Nat) (st : ContractState) :
    Except ContractError Nat :=
  let count := st.guessCount artworkId player
  if 0 < count then
    .ok (st.guessResults artworkId player (count - 1)).encryptedDiff
  else .error .NoGuessFound

/-- `artworkExists` view function. -/
def artworkExists (artworkId : Nat) (st : ContractState) : Bool :=
  (st.artworks artworkId).existsFlag

/-- `getGuessCount` view function. -/
def getGuessCount (artworkId player : Nat) (st : ContractState) : Nat :=
  st.guessCount artworkId player

/-- The state-changing entry points of the contract, with `msg.sender` and
`block.timestamp` made explicit. -/
inductive Op where
  | addArtwork (caller artworkId encryptedYear inputProof ts : Nat)
  | addArtworksBatch (caller : Nat) (ids years proofs : List Nat) (ts : Nat)
  | submitGuess (caller artworkId encryptedGuess inputProof ts : Nat)

/-- Transaction semantics of one call: on revert the state is unchanged
(the EVM rolls the whole call back atomically). -/
def applyOp (op : Op) (st : ContractState) : ContractState :=
  match op with
  | .addArtwork c a y pr ts =>
    match addArtwork c a y pr ts st with
    | .ok st' => st'
    | .error _ => st
  | .addArtworksBatch c ids ys prs ts =>
    match addArtworksBatch c ids ys prs ts st with
    | .ok st' => st'
    | .error _ => st
  | .submitGuess c a g pr ts =>
    match submitGuess c a g pr ts st with
    | .ok (_, st') => st'
    | .error _ => st

/-- Run a list of calls in order. -/
def runTrace (st : ContractState) : List Op → ContractState
  | [] => st
  | op :: ops => runTrace (applyOp op st) ops

/-- Claim C1: for every guess `g` and answer `y` in `[0, 65535]`, the value
selected by the branchless construction
`select(g > y, (g − y) mod 2^16, (y − g) mod 2^16)` equals the exact absolute
difference `|g − y|`, including `0` when `g = y`. -/
theorem computeAbsDiff_exact (g y : Nat) (hg : g ≤ 65535) (hy : y ≤ 65535) :
    computeAbsDiff g y = ((g : Int) - (y : Int)).natAbs := by
  unfold computeAbsDiff fheSelect fheGt fheSub U16
  rcases Nat.lt_or_ge y g with h | h
  · rw [if_pos (by simp; omega)]
    omega
  · rw [if_neg (by simp; omega)]
    omega

/-- Witness for C1 at the spec's own example (guess 1900, answer 1888,
difference 12), plus the `g = y` case. -/
theorem computeAbsDiff_exact_witness :
    (1900 ≤ 65535 ∧ 1888 ≤ 65535 ∧
      computeAbsDiff 1900 1888 = ((1900 : Int) - (1888 : Int)).natAbs) ∧
    computeAbsDiff 1850 1850 = 0 := by
  refine ⟨⟨by decide, by decide, computeAbsDiff_exact 1900 1888 (by decide) (by decide)⟩, ?_⟩
  decide

/-- A reverting `addArtwork` call leaves the transaction state unchanged. -/
theorem applyOp_addArtwork_error {c a y pr ts : Nat} {st : ContractState}
    (h : ∃ e, addArtwork c a y pr ts st = Except.error e) :
    applyOp (Op.addArtwork c a y pr ts) st = st := by
  obtain ⟨e, h⟩ := h
  simp [applyOp, h]

/-- A reverting `addArtworksBatch` call leaves the transaction state
unchanged. -/
theorem applyOp_addArtworksBatch_error {c : Nat} {ids ys prs : List Nat}
    {ts : Nat} {st : ContractState}
    (h : ∃ e, addArtworksBatch c ids ys prs ts st = Except.error e) :
    applyOp (Op.addArtworksBatch c ids ys prs ts) st = st := by
  obtain ⟨e, h⟩ := h
  simp [applyOp, h]

/-- A reverting `submitGuess` call leaves the transaction state unchanged. -/
theorem applyOp_submitGuess_error {c a g pr ts : Nat} {st : ContractState}
    (h : ∃ e, submitGuess c a g pr ts st = Except.error e) :
    applyOp (Op.submitGuess c a g pr ts) st = st := by
  obtain ⟨e, h⟩ := h
  simp [applyOp, h]

/-- Characterization of a successful `addArtwork`: the caller was the owner,
the ID was fresh, and the new state is the registration of the entry. -/
theorem addArtwork_ok {c a y pr ts : Nat} {st st1 : ContractState}
    (h : addArtwork c a y pr ts st = Except.ok st1) :
    c = st.owner ∧ (st.artworks a).existsFlag = false ∧
      st1 = registerArtworkEntry a y pr ts st := by
  unfold addArtwork at h
  split at h
  · split at h
    · cases h
    · cases h
      refine ⟨by assumption, by simp_all, rfl⟩
  · cases h

/-- Claim C3: after a successful `addArtwork`, a second (owner-issued)
`addArtwork` with the same ID reverts with the duplicate-artwork condition,
and the state after the failed call equals the state before it. -/
theorem addArtwork_duplicate_reverts (caller1 caller2 a y1 pr1 ts1 y2 pr2 ts2 : Nat)
    (st st1 : ContractState)
    (h1 : addArtwork caller1 a y1 pr1 ts1 st = Except.ok st1)
    (hc : caller2 = st1.owner) :
    addArtwork caller2 a y2 pr2 ts2 st1 = Except.error ContractError.ArtworkAlreadyExists
    ∧ applyOp (Op.addArtwork caller2 a y2 pr2 ts2) st1 = st1 := by
  obtain ⟨-, -, rfl⟩ := addArtwork_ok h1
  have hex : ((registerArtworkEntry a y1 pr1 ts1 st).artworks a).existsFlag = true := by
    simp [registerArtworkEntry]
  have herr : addArtwork caller2 a y2 pr2 ts2 (registerArtworkEntry a y1 pr1 ts1 st)
      = Except.error ContractError.ArtworkAlreadyExists := by
    unfold addArtwork
    rw [if_pos hc, if_pos hex]
  exact ⟨herr, applyOp_addArtwork_error ⟨_, herr⟩⟩

/-- Witness for C3: registering artwork 7 from the fresh deployment and
registering it again. -/
theorem addArtwork_duplicate_reverts_witness :
    (addArtwork 0 7 1888 0 1 (initState 0)
        = Except.ok (registerArtworkEntry 7 1888 0 1 (initState 0)))
    ∧ ((0 : Nat) = (registerArtworkEntry 7 1888 0 1 (initState 0)).owner)
    ∧ (addArtwork 0 7 1777 0 2 (registerArtworkEntry 7 1888 0 1 (initState 0))
        = Except.error ContractError.ArtworkAlreadyExists
      ∧ applyOp (Op.addArtwork 0 7 1777 0 2) (registerArtworkEntry 7 1888 0 1 (initState 0))
        = registerArtworkEntry 7 1888 0 1 (initState 0)) :=
  ⟨rfl, rfl, addArtwork_duplicate_reverts 0 0 7 1888 0 1 1777 0 2 (initState 0) _ rfl rfl⟩

/-- Claim C5: for an owner-issued call, `addArtworksBatch` reverts with the
length-mismatch condition exactly when the three arrays do not all have equal
length, and in that case performs no registration (the state is unchanged). -/
theorem addArtworksBatch_length_check (caller : Nat) (ids ys prs : List Nat)
    (ts : Nat) (st : ContractState) (hc : caller = st.owner) :
    (addArtworksBatch caller ids ys prs ts st
        = Except.error ContractError.LengthMismatch
      ↔ ¬(ids.length = ys.length ∧ ids.length = prs.length))
    ∧ (¬(ids.length = ys.length ∧ ids.length = prs.length) →
        applyOp (Op.addArtworksBatch caller ids ys prs ts) st = st) := by
  by_cases hl : ids.length = ys.length ∧ ids.length = prs.length
  · have hok : addArtworksBatch caller ids ys prs ts st
        = Except.ok (addArtworksBatchLoop ts (ids.zip (ys.zip prs)) st) := by
      unfold addArtworksBatch
      rw [if_pos hc, if_pos hl]
    refine ⟨?_, fun h => absurd hl h⟩
    rw [hok]
    exact ⟨fun h => Except.noConfusion h, fun h => absurd hl h⟩
  · have herr : addArtworksBatch caller ids ys prs ts st
        = Except.error ContractError.LengthMismatch := by
      unfold addArtworksBatch
      rw [if_pos hc, if_neg hl]
    exact ⟨by rw [herr]; simp [hl], fun _ => applyOp_addArtworksBatch_error ⟨_, herr⟩⟩

/-- Witness for C5 with one ID and empty year/proof arrays. -/
theorem addArtworksBatch_length_check_witness :
    ((0 : Nat) = (initState 0).owner)
    ∧ ((addArtworksBatch 0 [1] [] [] 0 (initState 0)
          = Except.error ContractError.LengthMismatch
        ↔ ¬(([1] : List Nat).length = ([] : List Nat).length
            ∧ ([1] : List Nat).length = ([] : List Nat).length))
      ∧ (¬(([1] : List Nat).length = ([] : List Nat).length
            ∧ ([1] : List Nat).length = ([] : List Nat).length) →
          applyOp (Op.addArtworksBatch 0 [1] [] [] 0) (initState 0) = initState 0)) :=
  ⟨rfl, addArtworksBatch_length_check 0 [1] [] [] 0 (initState 0) rfl⟩

/-- The batch loop never touches the guess-related state or the owner. -/
theorem batchLoop_guess_state (ts : Nat) (l : List (Nat × Nat × Nat)) :
    ∀ st : ContractState,
      (addArtworksBatchLoop ts l st).guessCount = st.guessCount
      ∧ (addArtworksBatchLoop ts l st).guessResults = st.guessResults
      ∧ (addArtworksBatchLoop ts l st).owner = st.owner := by
  induction l with
  | nil => exact fun st => ⟨rfl, rfl, rfl⟩
  | cons hd tl ih =>
    obtain ⟨aid, y, pr⟩ := hd
    intro st
    simp only [addArtworksBatchLoop]
    split
    · exact ih st
    · exact ih (registerArtworkEntry aid y pr ts st)

/-- The batch loop leaves every already-existing artwork record untouched. -/
theorem batchLoop_preserves_existing (ts : Nat) (l : List (Nat × Nat × Nat)) :
    ∀ (st : ContractState) (d : Nat), (st.artworks d).existsFlag = true →
      (addArtworksBatchLoop ts l st).artworks d = st.artworks d := by
  induction l with
  | nil => exact fun st d _ => rfl
  | cons hd tl ih =>
    obtain ⟨aid, y, pr⟩ := hd
    intro st d h
    simp only [addArtworksBatchLoop]
    split
    · exact ih st d h
    · rename_i hfresh
      have hne : d ≠ aid := by
        intro he
        rw [he] at h
        exact hfresh h
      have hreg : (registerArtworkEntry aid y pr ts st).artworks d = st.artworks d := by
        simp [registerArtworkEntry, hne]
      calc (addArtworksBatchLoop ts tl (registerArtworkEntry aid y pr ts st)).artworks d
          = (registerArtworkEntry aid y pr ts st).artworks d :=
            ih _ d (by rw [hreg]; exact h)
        _ = st.artworks d := hreg

/-- Events already emitted survive the batch loop (the log is append-only). -/
theorem batchLoop_events_mono (ts : Nat) (l : List (Nat × Nat × Nat)) :
    ∀ (st : ContractState) (ev : Event), ev ∈ st.events →
      ev ∈ (addArtworksBatchLoop ts l st).events := by
  induction l with
  | nil => exact fun st ev h => h
  | cons hd tl ih =>
    obtain ⟨aid, y, pr⟩ := hd
    intro st ev h
    simp only [addArtworksBatchLoop]
    split
    · exact ih st ev h
    · refine ih _ ev ?_
      simp only [registerArtworkEntry]
      exact List.mem_append_left _ h

/-- Every ID appearing in the batch entry list exists after the loop. -/
theorem batchLoop_registers (ts : Nat) (l : List (Nat × Nat × Nat)) :
    ∀ (st : ContractState) (e : Nat × Nat × Nat), e ∈ l →
      ((addArtworksBatchLoop ts l st).artworks e.1).existsFlag = true := by
  induction l with
  | nil => intro st e he; cases he
  | cons hd tl ih =>
    obtain ⟨aid, y, pr⟩ := hd
    intro st e he
    simp only [addArtworksBatchLoop]
    rcases List.mem_cons.mp he with rfl | htl
    · split
      · rename_i hex
        rw [batchLoop_preserves_existing ts tl st aid hex]
        exact hex
      · have hreg : ((registerArtworkEntry aid y pr ts st).artworks aid).existsFlag = true := by
          simp [registerArtworkEntry]
        rw [batchLoop_preserves_existing ts tl _ aid hreg]
        exact hreg
    · split
      · exact ih st e htl
      · exact ih _ e htl

/-- Grants already issued survive the batch loop (the log is append-only). -/
theorem batchLoop_grants_mono (ts : Nat) (l : List (Nat × Nat × Nat)) :
    ∀ (st : ContractState) (gr : Grant), gr ∈ st.grants →
      gr ∈ (addArtworksBatchLoop ts l st).grants := by
  induction l with
  | nil => exact fun st gr h => h
  | cons hd tl ih =>
    obtain ⟨aid, y, pr⟩ := hd
    intro st gr h
    simp only [addArtworksBatchLoop]
    split
    · exact ih st gr h
    · refine ih _ gr ?_
      simp only [registerArtworkEntry]
      exact List.mem_append_left _ h

/-- For every batch entry whose ID is fresh, the loop performs the full
registration from one of that ID's batch entries: the stored record is that
entry's validated year with the flag set, the contract's self-grant on the
year handle is in the grant log, and the `ArtworkAdded` event is emitted. -/
theorem batchLoop_registration_data (ts : Nat) (l : List (Nat × Nat × Nat)) :
    ∀ (st : ContractState) (e : Nat × Nat × Nat), e ∈ l →
      (st.artworks e.1).existsFlag = false →
      ∃ y pr, (e.1, y, pr) ∈ l
        ∧ (addArtworksBatchLoop ts l st).artworks e.1 = ⟨fheFromExternal y pr, true⟩
        ∧ Grant.allowThis (fheFromExternal y pr) ∈ (addArtworksBatchLoop ts l st).grants
        ∧ Event.ArtworkAdded e.1 ts ∈ (addArtworksBatchLoop ts l st).events := by
  induction l with
  | nil => intro st e he; cases he
  | cons hd tl ih =>
    obtain ⟨aid, y, pr⟩ := hd
    intro st e he hfresh
    simp only [addArtworksBatchLoop]
    rcases List.mem_cons.mp he with rfl | htl
    · split
      · rename_i hex
        rw [hfresh] at hex
        cases hex
      · have hkeep := batchLoop_preserves_existing ts tl
          (registerArtworkEntry aid y pr ts st) aid (by simp [registerArtworkEntry])
        refine ⟨y, pr, List.mem_cons_self _ _, ?_, ?_, ?_⟩
        · show (addArtworksBatchLoop ts tl
              (registerArtworkEntry aid y pr ts st)).artworks aid
            = ⟨fheFromExternal y pr, true⟩
          rw [hkeep]
          simp [registerArtworkEntry]
        · refine batchLoop_grants_mono ts tl _ _ ?_
          simp [registerArtworkEntry]
        · show Event.ArtworkAdded aid ts ∈ (addArtworksBatchLoop ts tl
            (registerArtworkEntry aid y pr ts st)).events
          refine batchLoop_events_mono ts tl _ _ ?_
          simp [registerArtworkEntry]
    · split
      · obtain ⟨y', pr', hm, hq1, hq2, hq3⟩ := ih st e htl hfresh
        exact ⟨y', pr', List.mem_cons_of_mem _ hm, hq1, hq2, hq3⟩
      · by_cases hd1 : e.1 = aid
        · have hkeep := batchLoop_preserves_existing ts tl
            (registerArtworkEntry aid y pr ts st) aid (by simp [registerArtworkEntry])
          refine ⟨y, pr, ?_, ?_, ?_, ?_⟩
          · rw [hd1]
            exact List.mem_cons_self _ _
          · rw [hd1, hkeep]
            simp [registerArtworkEntry]
          · refine batchLoop_grants_mono ts tl _ _ ?_
            simp [registerArtworkEntry]
          · rw [hd1]
            refine batchLoop_events_mono ts tl _ _ ?_
            simp [registerArtworkEntry]
        · have hfresh2 : ((registerArtworkEntry aid y pr ts st).artworks e.1).existsFlag = false := by
            simp only [registerArtworkEntry]
            simpa [hd1] using hfresh
          obtain ⟨y', pr', hm, hq1, hq2, hq3⟩ := ih _ e htl hfresh2
          exact ⟨y', pr', List.mem_cons_of_mem _ hm, hq1, hq2, hq3⟩

/-- The batch loop extends the event log by exactly one `ArtworkAdded`
record per registration and advances `totalArtworks` in lockstep with it. -/
theorem batchLoop_count_lockstep (ts : Nat) (l : List (Nat × Nat × Nat)) :
    ∀ st : ContractState, ∃ evs : List Event,
      (addArtworksBatchLoop ts l st).events = st.events ++ evs
      ∧ (addArtworksBatchLoop ts l st).totalArtworks = st.totalArtworks + evs.length
      ∧ ∀ ev ∈ evs, ∃ d, ev = Event.ArtworkAdded d ts := by
  induction l with
  | nil =>
    intro st
    exact ⟨[], by simp [addArtworksBatchLoop], by simp [addArtworksBatchLoop],
      by simp⟩
  | cons hd tl ih =>
    obtain ⟨aid, y, pr⟩ := hd
    intro st
    simp only [addArtworksBatchLoop]
    split
    · exact ih st
    · obtain ⟨evs, hq1, hq2, hq3⟩ := ih (registerArtworkEntry aid y pr ts st)
      refine ⟨Event.ArtworkAdded aid ts :: evs, ?_, ?_, ?_⟩
      · rw [hq1]
        simp [registerArtworkEntry]
      · rw [hq2]
        simp only [registerArtworkEntry, List.length_cons]
        omega
      · intro ev hev
        rcases List.mem_cons.mp hev with rfl | hm
        · exact ⟨aid, rfl⟩
        · exact hq3 ev hm

/-- A member of the ID array corresponds to a zipped batch entry when the
three arrays have equal length. -/
theorem exists_zip_entry {ids ys prs : List Nat} {d : Nat} (hd : d ∈ ids)
    (h1 : ids.length = ys.length) (h2 : ids.length = prs.length) :
    ∃ y pr, (d, y, pr) ∈ ids.zip (ys.zip prs) := by
  have hlen : ids.length ≤ (ys.zip prs).length := by
    rw [List.length_zip]
    omega
  have hmap : (ids.zip (ys.zip prs)).map Prod.fst = ids := List.map_fst_zip _ _ hlen
  rw [← hmap] at hd
  obtain ⟨⟨e1, e2, e3⟩, he, hfst⟩ := List.mem_map.mp hd
  cases hfst
  exact ⟨e2, e3, he⟩

/-- Claim C4: an owner-issued batch whose arrays have equal length succeeds;
entries whose ID already exists are skipped without error and without
touching the stored record, while every ID in the batch exists afterwards.
Each fresh ID is fully registered from one of its batch entries: the stored
record is that entry's validated year with the flag set, the contract's
self-grant (`FHE.allowThis`) on the year handle is issued, its
`ArtworkAdded` event is emitted, and `totalArtworks` advances by exactly one
per emitted registration event. -/
theorem addArtworksBatch_skips_existing (caller : Nat) (ids ys prs : List Nat)
    (ts : Nat) (st : ContractState) (hc : caller = st.owner)
    (h1 : ids.length = ys.length) (h2 : ids.length = prs.length) :
    ∃ st', addArtworksBatch caller ids ys prs ts st = Except.ok st'
      ∧ (∀ d, (st.artworks d).existsFlag = true → st'.artworks d = st.artworks d)
      ∧ (∀ d ∈ ids, (st'.artworks d).existsFlag = true)
      ∧ (∀ d ∈ ids, (st.artworks d).existsFlag = false →
          ∃ y pr, (d, y, pr) ∈ ids.zip (ys.zip prs)
            ∧ st'.artworks d = ⟨fheFromExternal y pr, true⟩
            ∧ Grant.allowThis (fheFromExternal y pr) ∈ st'.grants
            ∧ Event.ArtworkAdded d ts ∈ st'.events)
      ∧ (∃ evs, st'.events = st.events ++ evs
          ∧ st'.totalArtworks = st.totalArtworks + evs.length
          ∧ ∀ ev ∈ evs, ∃ d, ev = Event.ArtworkAdded d ts) := by
  refine ⟨addArtworksBatchLoop ts (ids.zip (ys.zip prs)) st, ?_, ?_, ?_, ?_, ?_⟩
  · unfold addArtworksBatch
    rw [if_pos hc, if_pos ⟨h1, h2⟩]
  · exact fun d hd => batchLoop_preserves_existing ts _ st d hd
  · intro d hd
    obtain ⟨y, pr, hmem⟩ := exists_zip_entry hd h1 h2
    exact batchLoop_registers ts _ st (d, y, pr) hmem
  · intro d hd hfresh
    obtain ⟨y, pr, hmem⟩ := exists_zip_entry hd h1 h2
    exact batchLoop_registration_data ts _ st (d, y, pr) hmem hfresh
  · exact batchLoop_count_lockstep ts _ st

/-- Witness for C4: artwork 7 is already registered; the batch re-submits 7
and adds the fresh artwork 9. -/
theorem addArtworksBatch_skips_existing_witness :
    ((0 : Nat) = (registerArtworkEntry 7 1888 0 1 (initState 0)).owner)
    ∧ (([7, 9] : List Nat).length = ([1700, 1650] : List Nat).length)
    ∧ (([7, 9] : List Nat).length = ([0, 0] : List Nat).length)
    ∧ (∃ st', addArtworksBatch 0 [7, 9] [1700, 1650] [0, 0] 2
          (registerArtworkEntry 7 1888 0 1 (initState 0)) = Except.ok st'
        ∧ (∀ d, ((registerArtworkEntry 7 1888 0 1 (initState 0)).artworks d).existsFlag = true →
            st'.artworks d = (registerArtworkEntry 7 1888 0 1 (initState 0)).artworks d)
        ∧ (∀ d ∈ ([7, 9] : List Nat), (st'.artworks d).existsFlag = true)
        ∧ (∀ d ∈ ([7, 9] : List Nat),
            ((registerArtworkEntry 7 1888 0 1 (initState 0)).artworks d).existsFlag = false →
            ∃ y pr, (d, y, pr) ∈ ([7, 9] : List Nat).zip
                (([1700, 1650] : List Nat).zip ([0, 0] : List Nat))
              ∧ st'.artworks d = ⟨fheFromExternal y pr, true⟩
              ∧ Grant.allowThis (fheFromExternal y pr) ∈ st'.grants
              ∧ Event.ArtworkAdded d 2 ∈ st'.events)
        ∧ (∃ evs, st'.events = (registerArtworkEntry 7 1888 0 1 (initState 0)).events ++ evs
            ∧ st'.totalArtworks
              = (registerArtworkEntry 7 1888 0 1 (initState 0)).totalArtworks + evs.length
            ∧ ∀ ev ∈ evs, ∃ d, ev = Event.ArtworkAdded d 2)) :=
  ⟨rfl, rfl, rfl,
    addArtworksBatch_skips_existing 0 [7, 9] [1700, 1650] [0, 0] 2
      (registerArtworkEntry 7 1888 0 1 (initState 0)) rfl rfl rfl⟩

/-- Claim C6: `getGuessResult` reverts with the no-guess condition exactly
when the stored timestamp at the triple is zero; `getLatestGuessResult`
reverts with it exactly when the pair's guess count is zero; and
`submitGuess` reverts with the artwork-not-found condition exactly when the
artwork does not exist. -/
theorem missing_data_errors (artworkId player nonce : Nat) (st : ContractState) :
    (getGuessResult artworkId player nonce st
        = Except.error ContractError.NoGuessFound
      ↔ (st.guessResults artworkId player nonce).timestamp = 0)
    ∧ (getLatestGuessResult artworkId player st
        = Except.error ContractError.NoGuessFound
      ↔ st.guessCount artworkId player = 0)
    ∧ (∀ caller encryptedGuess inputProof ts,
        submitGuess caller artworkId encryptedGuess inputProof ts st
          = Except.error ContractError.ArtworkNotFound
        ↔ (st.artworks artworkId).existsFlag = false) := by
  refine ⟨?_, ?_, fun caller encryptedGuess inputProof ts => ?_⟩
  · unfold getGuessResult
    split <;> simp_all <;> omega
  · simp only [getLatestGuessResult]
    split <;> simp_all <;> omega
  · unfold submitGuess
    split <;> simp_all

/-- Claim C10: `addArtworksBatch` called by any principal other than the
owner reverts with the caller-authorization condition and leaves all state
unchanged. -/
theorem addArtworksBatch_only_owner (caller : Nat) (ids ys prs : List Nat)
    (ts : Nat) (st : ContractState) (h : caller ≠ st.owner) :
    addArtworksBatch caller ids ys prs ts st = Except.error ContractError.NotOwner
    ∧ applyOp (Op.addArtworksBatch caller ids ys prs ts) st = st := by
  have herr : addArtworksBatch caller ids ys prs ts st
      = Except.error ContractError.NotOwner := by
    unfold addArtworksBatch
    rw [if_neg h]
  exact ⟨herr, applyOp_addArtworksBatch_error ⟨_, herr⟩⟩

/-- Witness for C10: a non-deployer caller on the fresh deployment. -/
theorem addArtworksBatch_only_owner_witness :
    ((1 : Nat) ≠ (initState 0).owner)
    ∧ (addArtworksBatch 1 [3] [1888] [0] 5 (initState 0)
        = Except.error ContractError.NotOwner
      ∧ applyOp (Op.addArtworksBatch 1 [3] [1888] [0] 5) (initState 0) = initState 0) :=
  ⟨by decide, addArtworksBatch_only_owner 1 [3] [1888] [0] 5 (initState 0) (by decide)⟩

/-- Evaluation of a successful `submitGuess` call on an existing artwork:
returned nonce and full post-state, written out explicitly. -/
theorem submitGuess_spec (c a g pr ts : Nat) (st : ContractState)
    (h : (st.artworks a).existsFlag = true) :
    submitGuess c a g pr ts st = Except.ok (st.guessCount a c,
      { st with
        guessCount := fun a' p' =>
          if a' = a ∧ p' = c then st.guessCount a c + 1 else st.guessCount a' p'
        guessResults := fun a' p' n' =>
          if a' = a ∧ p' = c ∧ n' = st.guessCount a c then
            ⟨computeAbsDiff (fheFromExternal g pr) (st.artworks a).encryptedYear, ts⟩
          else st.guessResults a' p' n'
        grants := st.grants ++
          [Grant.allow (computeAbsDiff (fheFromExternal g pr) (st.artworks a).encryptedYear) c,
           Grant.allowThis (computeAbsDiff (fheFromExternal g pr) (st.artworks a).encryptedYear)]
        totalGuesses := st.totalGuesses + 1
        events := st.events ++
          [Event.GuessSubmitted a c (st.guessCount a c) ts] }) := by
  unfold submitGuess
  rw [if_pos h]

/-- `submitGuess` on a missing artwork reverts. -/
theorem submitGuess_error_of_missing {c a g pr ts : Nat} {st : ContractState}
    (h : ¬(st.artworks a).existsFlag = true) :
    submitGuess c a g pr ts st = Except.error ContractError.ArtworkNotFound := by
  unfold submitGuess
  rw [if_neg h]

/-- Elimination form of a successful `submitGuess`: the artwork existed,
the nonce was the pair's current count, and the post-state is the explicit
record of `submitGuess_spec`. -/
theorem submitGuess_ok_elim {c a g pr ts n : Nat} {st st' : ContractState}
    (h : submitGuess c a g pr ts st = Except.ok (n, st')) :
    (st.artworks a).existsFlag = true ∧ n = st.guessCount a c ∧
      st' = { st with
        guessCount := fun a' p' =>
          if a' = a ∧ p' = c then st.guessCount a c + 1 else st.guessCount a' p'
        guessResults := fun a' p' n' =>
          if a' = a ∧ p' = c ∧ n' = st.guessCount a c then
            ⟨computeAbsDiff (fheFromExternal g pr) (st.artworks a).encryptedYear, ts⟩
          else st.guessResults a' p' n'
        grants := st.grants ++
          [Grant.allow (computeAbsDiff (fheFromExternal g pr) (st.artworks a).encryptedYear) c,
           Grant.allowThis (computeAbsDiff (fheFromExternal g pr) (st.artworks a).encryptedYear)]
        totalGuesses := st.totalGuesses + 1
        events := st.events ++
          [Event.GuessSubmitted a c (st.guessCount a c) ts] } := by
  by_cases hex : (st.artworks a).existsFlag = true
  · have hs := submitGuess_spec c a g pr ts st hex
    rw [h] at hs
    injection hs with hp
    injection hp with h1 h2
    exact ⟨hex, h1, h2⟩
  · rw [submitGuess_error_of_missing hex] at h
    cases h

/-- The nonce that one call returns to the player `p` guessing on artwork
`a`, when the call is a successful `submitGuess` by that pair (empty list
otherwise). -/
def opNonces (a p : Nat) (op : Op) (st : ContractState) : List Nat :=
  match op with
  | .submitGuess c aid g pr ts =>
    if aid = a ∧ c = p then
      match submitGuess c aid g pr ts st with
      | .ok (n, _) => [n]
      | .error _ => []
    else []
  | .addArtwork _ _ _ _ _ => []
  | .addArtworksBatch _ _ _ _ _ => []

/-- All nonces returned to the pair `(a, p)` along a trace of calls. -/
def traceNonces (a p : Nat) : List Op → ContractState → List Nat
  | [], _ => []
  | op :: ops, st => opNonces a p op st ++ traceNonces a p ops (applyOp op st)

/-- Characterization of a successful `addArtworksBatch`: the result is the
loop applied to the zipped entries. -/
theorem addArtworksBatch_ok {c : Nat} {ids ys prs : List Nat} {ts : Nat}
    {st st1 : ContractState}
    (h : addArtworksBatch c ids ys prs ts st = Except.ok st1) :
    st1 = addArtworksBatchLoop ts (ids.zip (ys.zip prs)) st := by
  unfold addArtworksBatch at h
  split at h
  · split at h
    · cases h
      rfl
    · cases h
  · cases h

/-- `addArtwork` transactions never change the guess counters. -/
theorem applyOp_addArtwork_guessCount (c aid y pr ts : Nat) (st : ContractState) :
    (applyOp (Op.addArtwork c aid y pr ts) st).guessCount = st.guessCount := by
  simp only [applyOp]
  cases h : addArtwork c aid y pr ts st with
  | ok st1 =>
    obtain ⟨-, -, rfl⟩ := addArtwork_ok h
    rfl
  | error e => rfl

/-- `addArtworksBatch` transactions never change the guess counters. -/
theorem applyOp_addArtworksBatch_guessCount (c : Nat) (ids ys prs : List Nat)
    (ts : Nat) (st : ContractState) :
    (applyOp (Op.addArtworksBatch c ids ys prs ts) st).guessCount = st.guessCount := by
  simp only [applyOp]
  cases h : addArtworksBatch c ids ys prs ts st with
  | ok st1 =>
    obtain rfl := addArtworksBatch_ok h
    exact (batchLoop_guess_state ts _ st).1
  | error e => rfl

/-- One transaction either returns no nonce to the pair `(a, p)` and leaves
its counter alone, or returns exactly the current counter value and
increments it by one. -/
theorem opNonces_step (a p : Nat) (op : Op) (st : ContractState) :
    (opNonces a p op st = []
      ∧ (applyOp op st).guessCount a p = st.guessCount a p)
    ∨ (opNonces a p op st = [st.guessCount a p]
      ∧ (applyOp op st).guessCount a p = st.guessCount a p + 1) := by
  cases op with
  | addArtwork c aid y pr ts =>
    exact Or.inl ⟨rfl, by rw [applyOp_addArtwork_guessCount]⟩
  | addArtworksBatch c ids ys prs ts =>
    exact Or.inl ⟨rfl, by rw [applyOp_addArtworksBatch_guessCount]⟩
  | submitGuess c aid g pr ts =>
    by_cases hmatch : aid = a ∧ c = p
    · obtain ⟨rfl, rfl⟩ := hmatch
      by_cases hex : (st.artworks aid).existsFlag = true
      · right
        have hs := submitGuess_spec c aid g pr ts st hex
        constructor
        · simp [opNonces, hs]
        · simp [applyOp, hs]
      · left
        have herr := @submitGuess_error_of_missing c aid g pr ts st hex
        constructor
        · simp [opNonces, herr]
        · simp [applyOp, herr]
    · left
      constructor
      · simp [opNonces, hmatch]
      · by_cases hex : (st.artworks aid).existsFlag = true
        · have hs := submitGuess_spec c aid g pr ts st hex
          have hne : ¬(a = aid ∧ p = c) := fun ⟨u, v⟩ => hmatch ⟨u.symm, v.symm⟩
          simp only [applyOp, hs]
          rw [if_neg hne]
        · have herr := @submitGuess_error_of_missing c aid g pr ts st hex
          simp [applyOp, herr]

/-- The nonces returned to a pair along any trace form the contiguous
ascending run starting at the pair's current counter, and the counter ends
up advanced by exactly the number of successes. -/
theorem traceNonces_spec (a p : Nat) (ops : List Op) : ∀ st : ContractState,
    traceNonces a p ops st
      = List.range' (st.guessCount a p) (traceNonces a p ops st).length
    ∧ (runTrace st ops).guessCount a p
      = st.guessCount a p + (traceNonces a p ops st).length := by
  induction ops with
  | nil => exact fun st => ⟨rfl, rfl⟩
  | cons op ops ih =>
    intro st
    have hstep := opNonces_step a p op st
    have htail := ih (applyOp op st)
    rcases hstep with ⟨h0, hcnt⟩ | ⟨h0, hcnt⟩
    · rw [hcnt] at htail
      constructor
      · simp only [traceNonces, h0, List.nil_append]
        exact htail.1
      · simp only [traceNonces, h0, List.nil_append, runTrace]
        exact htail.2
    · rw [hcnt] at htail
      constructor
      · simp only [traceNonces, h0, List.singleton_append, List.length_cons]
        rw [List.range']
        exact congrArg _ htail.1
      · simp only [traceNonces, h0, List.singleton_append, List.length_cons, runTrace]
        omega

/-- Claim C2: starting from a fresh deployment, the nonces returned to any
(artwork, player) pair by its successful `submitGuess` calls are exactly
`0, 1, 2, …` in order (the n-th success returns `n − 1`), and afterwards
`getGuessCount` equals the number of successes. -/
theorem submitGuess_nonce_sequence (deployer a p : Nat) (ops : List Op) :
    traceNonces a p ops (initState deployer)
      = List.range (traceNonces a p ops (initState deployer)).length
    ∧ getGuessCount a p (runTrace (initState deployer) ops)
      = (traceNonces a p ops (initState deployer)).length := by
  have h := traceNonces_spec a p ops (initState deployer)
  constructor
  · rw [List.range_eq_range']
    exact h.1
  · have h2 := h.2
    simpa [getGuessCount, initState] using h2

/-- Claim C7: every accepted `submitGuess` writes exactly one result slot —
the one at (artworkId, caller, nonce) — leaving every other slot untouched,
and appends exactly two decrypt grants on the result handle: one to the
submitting caller and one to the contract itself. -/
theorem submitGuess_result_and_grants (c a g pr ts : Nat) (st : ContractState)
    (h : (st.artworks a).existsFlag = true) :
    ∃ n st', submitGuess c a g pr ts st = Except.ok (n, st')
      ∧ st'.guessResults a c n =
          ⟨computeAbsDiff (fheFromExternal g pr) (st.artworks a).encryptedYear, ts⟩
      ∧ (∀ a' p' n', ¬(a' = a ∧ p' = c ∧ n' = n) →
          st'.guessResults a' p' n' = st.guessResults a' p' n')
      ∧ st'.grants = st.grants ++
          [Grant.allow (computeAbsDiff (fheFromExternal g pr) (st.artworks a).encryptedYear) c,
           Grant.allowThis (computeAbsDiff (fheFromExternal g pr) (st.artworks a).encryptedYear)] := by
  refine ⟨st.guessCount a c, _, submitGuess_spec c a g pr ts st h, ?_, ?_, rfl⟩
  · simp
  · intro a' p' n' hne
    exact if_neg hne

/-- Witness for C7: the deployer registers artwork 7, then player 5 guesses. -/
theorem submitGuess_result_and_grants_witness :
    (((registerArtworkEntry 7 1888 0 1 (initState 0)).artworks 7).existsFlag = true)
    ∧ (∃ n st', submitGuess 5 7 1900 0 2 (registerArtworkEntry 7 1888 0 1 (initState 0))
          = Except.ok (n, st')
        ∧ st'.guessResults 7 5 n =
            ⟨computeAbsDiff (fheFromExternal 1900 0)
              (((registerArtworkEntry 7 1888 0 1 (initState 0)).artworks 7).encryptedYear), 2⟩
        ∧ (∀ a' p' n', ¬(a' = 7 ∧ p' = 5 ∧ n' = n) →
            st'.guessResults a' p' n'
              = (registerArtworkEntry 7 1888 0 1 (initState 0)).guessResults a' p' n')
        ∧ st'.grants = (registerArtworkEntry 7 1888 0 1 (initState 0)).grants ++
            [Grant.allow (computeAbsDiff (fheFromExternal 1900 0)
                (((registerArtworkEntry 7 1888 0 1 (initState 0)).artworks 7).encryptedYear)) 5,
             Grant.allowThis (computeAbsDiff (fheFromExternal 1900 0)
                (((registerArtworkEntry 7 1888 0 1 (initState 0)).artworks 7).encryptedYear))]) :=
  ⟨rfl, submitGuess_result_and_grants 5 7 1900 0 2
    (registerArtworkEntry 7 1888 0 1 (initState 0)) rfl⟩

/-- The storage well-formedness invariant the contract maintains: result
slots at or above a pair's guess count have never been written (their
timestamp is the zero default). -/
def ResultsInv (st : ContractState) : Prop :=
  ∀ a p n, st.guessCount a p ≤ n → (st.guessResults a p n).timestamp = 0

/-- Claim C8: every transaction preserves the storage invariant, never
changes an existing artwork record (so `encryptedYear` is immutable and
`existsFlag` never reverts), never rewrites a result slot that has been
written (timestamp nonzero) nor any slot below a pair's counter, and never
decreases a guess counter — so each result slot is written at most once. -/
theorem state_immutability (op : Op) (st : ContractState) (hInv : ResultsInv st) :
    ResultsInv (applyOp op st)
    ∧ (∀ i, (st.artworks i).existsFlag = true →
        (applyOp op st).artworks i = st.artworks i)
    ∧ (∀ a p n, (st.guessResults a p n).timestamp ≠ 0 ∨ n < st.guessCount a p →
        (applyOp op st).guessResults a p n = st.guessResults a p n)
    ∧ (∀ a p, st.guessCount a p ≤ (applyOp op st).guessCount a p) := by
  cases op with
  | addArtwork c aid y pr ts =>
    simp only [applyOp]
    cases h : addArtwork c aid y pr ts st with
    | ok st1 =>
      obtain ⟨-, hfresh, rfl⟩ := addArtwork_ok h
      refine ⟨hInv, ?_, fun a p n _ => rfl, fun a p => Nat.le_refl _⟩
      intro i hi
      have hne : i ≠ aid := by
        intro he
        rw [he, hfresh] at hi
        cases hi
      simp [registerArtworkEntry, hne]
    | error e =>
      exact ⟨hInv, fun i _ => rfl, fun a p n _ => rfl, fun a p => Nat.le_refl _⟩
  | addArtworksBatch c ids ys prs ts =>
    simp only [applyOp]
    cases h : addArtworksBatch c ids ys prs ts st with
    | ok st1 =>
      obtain rfl := addArtworksBatch_ok h
      obtain ⟨hcnt, hres, -⟩ := batchLoop_guess_state ts (ids.zip (ys.zip prs)) st
      refine ⟨?_, ?_, ?_, ?_⟩
      · intro a p n hle
        rw [hres]
        exact hInv a p n (by rw [hcnt] at hle; exact hle)
      · exact fun i hi => batchLoop_preserves_existing ts _ st i hi
      · intro a p n _
        rw [hres]
      · intro a p
        rw [hcnt]
    | error e =>
      exact ⟨hInv, fun i _ => rfl, fun a p n _ => rfl, fun a p => Nat.le_refl _⟩
  | submitGuess c aid g pr ts =>
    simp only [applyOp]
    cases h : submitGuess c aid g pr ts st with
    | ok pair =>
      obtain ⟨n0, st1⟩ := pair
      obtain ⟨hex, hn0, rfl⟩ := submitGuess_ok_elim h
      refine ⟨?_, fun i _ => rfl, ?_, ?_⟩
      · intro a p n hle
        by_cases hkey : a = aid ∧ p = c ∧ n = st.guessCount aid c
        · exfalso
          obtain ⟨rfl, rfl, rfl⟩ := hkey
          simp at hle
        · have hcnt : st.guessCount a p ≤ n := by
            by_cases hk2 : a = aid ∧ p = c
            · obtain ⟨rfl, rfl⟩ := hk2
              simp at hle
              omega
            · simpa [hk2] using hle
          simpa [hkey] using hInv a p n hcnt
      · intro a p n hwr
        have hlt : n < st.guessCount a p := by
          rcases hwr with hts | hlt
          · by_contra hge
            exact hts (hInv a p n (Nat.le_of_not_lt hge))
          · exact hlt
        have hkey : ¬(a = aid ∧ p = c ∧ n = st.guessCount aid c) := by
          rintro ⟨rfl, rfl, rfl⟩
          omega
        simp [hkey]
      · intro a p
        by_cases hk2 : a = aid ∧ p = c
        · obtain ⟨rfl, rfl⟩ := hk2
          simp
        · simp [hk2]
    | error e =>
      exact ⟨hInv, fun i _ => rfl, fun a p n _ => rfl, fun a p => Nat.le_refl _⟩

/-- Witness for C8: the invariant holds after registering artwork 7, and is
preserved by player 5 guessing on it. -/
theorem state_immutability_witness :
    ResultsInv (registerArtworkEntry 7 1888 0 1 (initState 0))
    ∧ (ResultsInv (applyOp (Op.submitGuess 5 7 1900 0 2)
          (registerArtworkEntry 7 1888 0 1 (initState 0)))
      ∧ (∀ i, ((registerArtworkEntry 7 1888 0 1 (initState 0)).artworks i).existsFlag = true →
          (applyOp (Op.submitGuess 5 7 1900 0 2)
              (registerArtworkEntry 7 1888 0 1 (initState 0))).artworks i
            = (registerArtworkEntry 7 1888 0 1 (initState 0)).artworks i)
      ∧ (∀ a p n, ((registerArtworkEntry 7 1888 0 1 (initState 0)).guessResults a p n).timestamp ≠ 0
            ∨ n < (registerArtworkEntry 7 1888 0 1 (initState 0)).guessCount a p →
          (applyOp (Op.submitGuess 5 7 1900 0 2)
              (registerArtworkEntry 7 1888 0 1 (initState 0))).guessResults a p n
            = (registerArtworkEntry 7 1888 0 1 (initState 0)).guessResults a p n)
      ∧ (∀ a p, (registerArtworkEntry 7 1888 0 1 (initState 0)).guessCount a p ≤
          (applyOp (Op.submitGuess 5 7 1900 0 2)
              (registerArtworkEntry 7 1888 0 1 (initState 0))).guessCount a p)) :=
  ⟨fun _ _ _ _ => rfl,
    state_immutability (Op.submitGuess 5 7 1900 0 2)
      (registerArtworkEntry 7 1888 0 1 (initState 0)) (fun _ _ _ _ => rfl)⟩

/-- Claim C9: after a successful `submitGuess`, `getLatestGuessResult`
returns the `encryptedDiff` stored at index `count − 1`, that index is the
nonce just returned, and the stored handle is the absolute difference the
call computed — i.e. the latest result is the most recent submission. -/
theorem latest_result_is_most_recent (c a g pr ts n : Nat) (st st' : ContractState)
    (h : submitGuess c a g pr ts st = Except.ok (n, st')) :
    getLatestGuessResult a c st'
        = Except.ok (st'.guessResults a c (st'.guessCount a c - 1)).encryptedDiff
    ∧ st'.guessCount a c - 1 = n
    ∧ (st'.guessResults a c n).encryptedDiff
        = computeAbsDiff (fheFromExternal g pr) (st.artworks a).encryptedYear := by
  obtain ⟨hex, rfl, rfl⟩ := submitGuess_ok_elim h
  refine ⟨?_, by simp, by simp⟩
  simp only [getLatestGuessResult]
  rw [if_pos (by simp)]

/-- Witness for C9: player 5's first guess on artwork 7. -/
theorem latest_result_is_most_recent_witness :
    (submitGuess 5 7 1900 0 2 (registerArtworkEntry 7 1888 0 1 (initState 0))
        = Except.ok (0, applyOp (Op.submitGuess 5 7 1900 0 2)
            (registerArtworkEntry 7 1888 0 1 (initState 0))))
    ∧ (getLatestGuessResult 7 5 (applyOp (Op.submitGuess 5 7 1900 0 2)
            (registerArtworkEntry 7 1888 0 1 (initState 0)))
        = Except.ok ((applyOp (Op.submitGuess 5 7 1900 0 2)
            (registerArtworkEntry 7 1888 0 1 (initState 0))).guessResults 7 5
              ((applyOp (Op.submitGuess 5 7 1900 0 2)
                (registerArtworkEntry 7 1888 0 1 (initState 0))).guessCount 7 5 - 1)).encryptedDiff
      ∧ (applyOp (Op.submitGuess 5 7 1900 0 2)
            (registerArtworkEntry 7 1888 0 1 (initState 0))).guessCount 7 5 - 1 = 0
      ∧ ((applyOp (Op.submitGuess 5 7 1900 0 2)
            (registerArtworkEntry 7 1888 0 1 (initState 0))).guessResults 7 5 0).encryptedDiff
        = computeAbsDiff (fheFromExternal 1900 0)
            (((registerArtworkEntry 7 1888 0 1 (initState 0)).artworks 7).encryptedYear)) :=
  ⟨rfl, latest_result_is_most_recent 5 7 1900 0 2 0
    (registerArtworkEntry 7 1888 0 1 (initState 0)) _ rfl⟩

end ArtEpoch
